import Mathlib

/-!
# Verification of the File-Organizer utility

A shallow embedding of the Go sources of ittehid/File-Organizer
(`src/main.go`, and the legacy variant in `src/unnamed/part_000`) together
with proofs of the specification's claims about them.

The filesystem is modelled as an association list from paths (strings) to
file contents; directories are implicit (the walk of a source tree is
modelled by the list of entries the walk visits, as `filepath.Walk`
delivers them).  I/O primitives that can fail for reasons other than the
state visible in the map (permission errors on `os.Open`, errors of
`os.Stat` that are not `IsNotExist`, failures of `os.Create`, `io.Copy`
and `os.Remove`) are modelled by fault sets naming the paths at which the
corresponding primitive fails.
-/

set_option autoImplicit false

namespace FileOrganizer

/-- Contents of a regular file (the byte sequence). -/
structure FileData where
  bytes : List Nat
deriving DecidableEq, Repr

/-- A filesystem state: a finite map from paths to file contents,
represented as an association list. -/
def FS : Type := List (String × FileData)

instance : DecidableEq FS := by unfold FS; infer_instance

/-- Look up the file stored at path `p` (the model of a successful
`os.Open`/`os.Stat` finding the file). -/
def FS.lookup : FS → String → Option FileData
  | [], _ => none
  | (q, d) :: rest, p => if q = p then some d else FS.lookup rest p

/-- Create or overwrite the file at path `p` with contents `d`
(the model of `os.Create` followed by writing). -/
def FS.insert (fs : FS) (p : String) (d : FileData) : FS :=
  match fs with
  | [] => [(p, d)]
  | (q, e) :: rest => if q = p then (p, d) :: rest else (q, e) :: FS.insert rest p d

/-- Remove the file at path `p` (the model of `os.Remove`). -/
def FS.erase : FS → String → FS
  | [], _ => []
  | (q, d) :: rest, p => if q = p then FS.erase rest p else (q, d) :: FS.erase rest p

theorem FS.lookup_insert_self (fs : FS) (p : String) (d : FileData) :
    (fs.insert p d).lookup p = some d := by
  induction fs with
  | nil => simp [FS.insert, FS.lookup]
  | cons hd tl ih =>
    obtain ⟨q, e⟩ := hd
    by_cases h : q = p
    · simp [FS.insert, FS.lookup, h]
    · simp [FS.insert, FS.lookup, h, ih]

theorem FS.lookup_insert_ne (fs : FS) (p : String) (d : FileData) (q : String)
    (h : p ≠ q) : (fs.insert p d).lookup q = fs.lookup q := by
  induction fs with
  | nil => simp [FS.insert, FS.lookup, h]
  | cons hd tl ih =>
    obtain ⟨r, e⟩ := hd
    by_cases hr : r = p
    · subst hr
      simp [FS.insert, FS.lookup, h]
    · simp [FS.insert, FS.lookup, hr, ih]

theorem FS.lookup_erase_self (fs : FS) (p : String) :
    (fs.erase p).lookup p = none := by
  induction fs with
  | nil => simp [FS.erase, FS.lookup]
  | cons hd tl ih =>
    obtain ⟨q, d⟩ := hd
    by_cases h : q = p
    · simp [FS.erase, h, ih]
    · simp [FS.erase, FS.lookup, h, ih]

theorem FS.lookup_erase_ne (fs : FS) (p : String) (q : String) (h : p ≠ q) :
    (fs.erase p).lookup q = fs.lookup q := by
  induction fs with
  | nil => simp [FS.erase]
  | cons hd tl ih =>
    obtain ⟨r, d⟩ := hd
    by_cases hr : r = p
    · subst hr
      simp [FS.erase, FS.lookup, h, ih]
    · simp [FS.erase, FS.lookup, hr, ih]

/-- Fault model: the paths at which each I/O primitive fails for a reason
not visible in the path→contents map (permissions, network errors, …). -/
structure Faults where
  openFail : List String
  statFail : List String
  createFail : List String
  copyFail : List String
  removeFail : List String
deriving DecidableEq, Repr

/-- The fault-free environment. -/
def noFaults : Faults := ⟨[], [], [], [], []⟩

/-- The possible error outcomes of `moveFile`, one per `return fmt.Errorf`
site in the Go code. -/
inductive MoveErr
  | openErr
  | statErr
  | conflict
  | createErr
  | copyErr
  | removeErr
deriving DecidableEq, Repr

/-- `moveFile` from `src/main.go` (lines 170-206): open the source, check
that the target does not already exist (`os.Stat`), create the target,
stream-copy the contents, close both handles and only then remove the
source.  Each early `return` leaves the filesystem as it was at that
point; a failing copy leaves the freshly created (truncated-empty) target
behind, as the Go code does. -/
def moveFile (flt : Faults) (fs : FS) (sourcePath targetPath : String) :
    FS × Option MoveErr :=
  if sourcePath ∈ flt.openFail then (fs, some .openErr) else
  match fs.lookup sourcePath with
  | none => (fs, some .openErr)
  | some data =>
    if targetPath ∈ flt.statFail then (fs, some .statErr) else
    match fs.lookup targetPath with
    | some _ => (fs, some .conflict)
    | none =>
      if targetPath ∈ flt.createFail then (fs, some .createErr) else
      let fs1 := fs.insert targetPath ⟨[]⟩
      if sourcePath ∈ flt.copyFail then (fs1, some .copyErr) else
      let fs2 := fs1.insert targetPath data
      if sourcePath ∈ flt.removeFail then (fs2, some .removeErr) else
      (fs2.erase sourcePath, none)

/-- The legacy `moveFile` from `src/unnamed/part_000` (lines 82-114): the
same copy-then-delete sequence but with no existence check on the target,
so `os.Create` truncates and overwrites an existing destination file. -/
def moveFileLegacy (flt : Faults) (fs : FS) (sourcePath targetPath : String) :
    FS × Option MoveErr :=
  if sourcePath ∈ flt.openFail then (fs, some .openErr) else
  match fs.lookup sourcePath with
  | none => (fs, some .openErr)
  | some data =>
    if targetPath ∈ flt.createFail then (fs, some .createErr) else
    let fs1 := fs.insert targetPath ⟨[]⟩
    if sourcePath ∈ flt.copyFail then (fs1, some .copyErr) else
    let fs2 := fs1.insert targetPath data
    if sourcePath ∈ flt.removeFail then (fs2, some .removeErr) else
    (fs2.erase sourcePath, none)

/-- A one-file filesystem used to instantiate the universally quantified
theorems at a concrete state. -/
def exFS : FS := [("src/a.bin", ⟨[1, 2, 3]⟩)]

/-- A filesystem in which the destination of the example transfer is
already occupied. -/
def exFSBoth : FS := [("src/a.bin", ⟨[1, 2, 3]⟩), ("tgt/a.bin", ⟨[9]⟩)]

/-- C1: in `moveFile` the source file is deleted only after the copy has
fully succeeded.  Whenever `moveFile` returns an error (open, stat,
conflict, create, copy — and also a failing remove) the source entry is
exactly as it was; and on the success path the source is gone and the
target holds the source's bytes. -/
theorem moveFile_source_removed_only_on_success
    (flt : Faults) (fs : FS) (src tgt : String) :
    ((moveFile flt fs src tgt).2 ≠ none →
      (moveFile flt fs src tgt).1.lookup src = fs.lookup src) ∧
    ((moveFile flt fs src tgt).2 = none →
      (moveFile flt fs src tgt).1.lookup src = none ∧
      (moveFile flt fs src tgt).1.lookup tgt = fs.lookup src) := by
  by_cases h1 : src ∈ flt.openFail
  · simp [moveFile, h1]
  · cases h2 : fs.lookup src with
    | none => simp [moveFile, h1, h2]
    | some data =>
      by_cases h3 : tgt ∈ flt.statFail
      · simp [moveFile, h1, h2, h3]
      · cases h4 : fs.lookup tgt with
        | some d2 => simp [moveFile, h1, h2, h3, h4]
        | none =>
          have hne : tgt ≠ src := by
            intro he
            rw [he, h2] at h4
            cases h4
          by_cases h5 : tgt ∈ flt.createFail
          · simp [moveFile, h1, h2, h3, h4, h5]
          · by_cases h6 : src ∈ flt.copyFail
            · simp [moveFile, h1, h2, h3, h4, h5, h6,
                FS.lookup_insert_ne _ _ _ _ hne]
            · by_cases h7 : src ∈ flt.removeFail
              · simp [moveFile, h1, h2, h3, h4, h5, h6, h7,
                  FS.lookup_insert_ne _ _ _ _ hne]
              · have hne' : src ≠ tgt := fun he => hne he.symm
                simp [moveFile, h1, h2, h3, h4, h5, h6, h7,
                  FS.lookup_erase_self,
                  FS.lookup_erase_ne _ _ _ hne',
                  FS.lookup_insert_self]

/-- Witness for C1: on a concrete one-file filesystem the transfer
succeeds, the source is gone and the target holds the source bytes. -/
theorem moveFile_source_removed_only_on_success_witness :
    (moveFile noFaults exFS "src/a.bin" "tgt/a.bin").1.lookup "src/a.bin" = none ∧
    (moveFile noFaults exFS "src/a.bin" "tgt/a.bin").1.lookup "tgt/a.bin" =
      exFS.lookup "src/a.bin" :=
  (moveFile_source_removed_only_on_success noFaults exFS
    "src/a.bin" "tgt/a.bin").2 (by decide)

/-- Auxiliary for `baseName`: scan the characters, restarting the
accumulated component at every separator; the final accumulator is the
last path component. -/
def baseNameAux : List Char → List Char → List Char
  | [], acc => acc
  | c :: rest, acc =>
    if c = '/' then baseNameAux rest [] else baseNameAux rest (acc ++ [c])

/-- `filepath.Base` (as `info.Name()` yields it for paths produced by
`filepath.Walk`, which carry no trailing separator): the last
slash-separated component of the path. -/
def baseName (p : String) : String := ⟨baseNameAux p.data []⟩

/-- `filepath.Join` of a directory and a base name (which contains no
separator, so no cleaning is needed). -/
def pathJoin (dir name : String) : String := dir ++ "/" ++ name

/-- One entry delivered by `filepath.Walk` to the walk function of
`processDirectory`: the visited path together with the `os.FileInfo`
facts the code consults (`IsDir`, `Size`). -/
structure WalkEntry where
  path : String
  isDir : Bool
  size : Int
deriving DecidableEq, Repr

/-- The log lines the program emits while transferring (the timestamp
added by `log` is irrelevant to the claims and omitted). -/
inductive RunLog
  | header (dir : String)
  | moved (src tgt : String)
  | moveError (src tgt : String) (e : MoveErr)
  | dirError (dir : String) (e : MoveErr)
deriving DecidableEq, Repr

/-- `processDirectory` from `src/main.go` (lines 150-166): walk the
entries of a source tree in order; skip directories and files below the
size threshold; for each qualifying file call `moveFile` with the target
directory joined with the file's base name, logging success or failure;
a `moveFile` failure is returned from the walk function, which makes
`filepath.Walk` abort the rest of the walk. -/
def processDirectory (flt : Faults) (targetDir : String) (minFileSize : Int) :
    List WalkEntry → FS → FS × List RunLog × Option MoveErr
  | [], fs => (fs, [], none)
  | e :: rest, fs =>
    if e.isDir = false ∧ minFileSize ≤ e.size then
      let targetPath := pathJoin targetDir (baseName e.path)
      let step := moveFile flt fs e.path targetPath
      match step.2 with
      | some err => (step.1, [RunLog.moveError e.path targetPath err], some err)
      | none =>
        let r := processDirectory flt targetDir minFileSize rest step.1
        (r.1, RunLog.moved e.path targetPath :: r.2.1, r.2.2)
    else
      processDirectory flt targetDir minFileSize rest fs

/-- The loop of `main` over the configured directory pairs
(`src/main.go` lines 46-54): pair the i-th source directory with the i-th
target directory, log the per-directory header, run `processDirectory`,
log its error if any, and continue with the next pair.  `walks` gives the
entries `filepath.Walk` visits under each source directory.  Indexing
`TargetDirs[i]` out of range is a Go panic, modelled by the Boolean
component: `true` aborts the loop on the spot. -/
def runPairs (flt : Faults) (minFileSize : Int)
    (walks : String → List WalkEntry) (targetDirs : List String) :
    List String → Nat → FS → FS × List RunLog × Bool
  | [], _, fs => (fs, [], false)
  | src :: rest, i, fs =>
    match targetDirs.get? i with
    | none => (fs, [], true)
    | some tgt =>
      let r := processDirectory flt tgt minFileSize (walks src) fs
      let dirLog : List RunLog :=
        match r.2.2 with
        | some e => [RunLog.dirError src e]
        | none => []
      let k := runPairs flt minFileSize walks targetDirs rest (i + 1) r.1
      (k.1, (RunLog.header src :: r.2.1 ++ dirLog) ++ k.2.1, k.2.2)

theorem processDirectory_cons_skip (flt : Faults) (tgtDir : String)
    (minSize : Int) (e : WalkEntry) (rest : List WalkEntry) (fs : FS)
    (h : ¬(e.isDir = false ∧ minSize ≤ e.size)) :
    processDirectory flt tgtDir minSize (e :: rest) fs =
      processDirectory flt tgtDir minSize rest fs := by
  rw [processDirectory, if_neg h]

theorem processDirectory_cons_fail (flt : Faults) (tgtDir : String)
    (minSize : Int) (e : WalkEntry) (rest : List WalkEntry) (fs : FS)
    (err : MoveErr) (hq : e.isDir = false ∧ minSize ≤ e.size)
    (hm : (moveFile flt fs e.path (pathJoin tgtDir (baseName e.path))).2 =
      some err) :
    processDirectory flt tgtDir minSize (e :: rest) fs =
      ((moveFile flt fs e.path (pathJoin tgtDir (baseName e.path))).1,
       [RunLog.moveError e.path (pathJoin tgtDir (baseName e.path)) err],
       some err) := by
  rw [processDirectory, if_pos hq]
  simp only [hm]

theorem processDirectory_cons_ok (flt : Faults) (tgtDir : String)
    (minSize : Int) (e : WalkEntry) (rest : List WalkEntry) (fs : FS)
    (hq : e.isDir = false ∧ minSize ≤ e.size)
    (hm : (moveFile flt fs e.path (pathJoin tgtDir (baseName e.path))).2 =
      none) :
    processDirectory flt tgtDir minSize (e :: rest) fs =
      ((processDirectory flt tgtDir minSize rest
          (moveFile flt fs e.path (pathJoin tgtDir (baseName e.path))).1).1,
       RunLog.moved e.path (pathJoin tgtDir (baseName e.path)) ::
         (processDirectory flt tgtDir minSize rest
           (moveFile flt fs e.path (pathJoin tgtDir (baseName e.path))).1).2.1,
       (processDirectory flt tgtDir minSize rest
         (moveFile flt fs e.path (pathJoin tgtDir (baseName e.path))).1).2.2) := by
  rw [processDirectory, if_pos hq]
  simp only [hm]

/-- Every log line `processDirectory` emits concerns a visited entry that
is not a directory and meets the size threshold, and its destination is
the target directory joined with the base name of the entry's path. -/
theorem processDirectory_log_shape (flt : Faults) (tgtDir : String)
    (minSize : Int) :
    ∀ (es : List WalkEntry) (fs : FS) (l : RunLog),
      l ∈ (processDirectory flt tgtDir minSize es fs).2.1 →
      ∃ a, a ∈ es ∧ a.isDir = false ∧ minSize ≤ a.size ∧
        (l = RunLog.moved a.path (pathJoin tgtDir (baseName a.path)) ∨
         ∃ err, l = RunLog.moveError a.path (pathJoin tgtDir (baseName a.path))
           err)
  | [], fs, l, hl => by simp [processDirectory] at hl
  | e :: rest, fs, l, hl => by
    by_cases hq : e.isDir = false ∧ minSize ≤ e.size
    · cases hm : (moveFile flt fs e.path (pathJoin tgtDir (baseName e.path))).2
        with
      | some err =>
        rw [processDirectory_cons_fail flt tgtDir minSize e rest fs err hq hm]
          at hl
        simp at hl
        exact ⟨e, List.mem_cons_self e rest, hq.1, hq.2, Or.inr ⟨err, hl⟩⟩
      | none =>
        rw [processDirectory_cons_ok flt tgtDir minSize e rest fs hq hm] at hl
        simp only [List.mem_cons] at hl
        rcases hl with h | h
        · exact ⟨e, List.mem_cons_self e rest, hq.1, hq.2, Or.inl h⟩
        · obtain ⟨a, ha, h1, h2, h3⟩ :=
            processDirectory_log_shape flt tgtDir minSize rest _ l h
          exact ⟨a, List.mem_cons_of_mem e ha, h1, h2, h3⟩
    · rw [processDirectory_cons_skip flt tgtDir minSize e rest fs hq] at hl
      obtain ⟨a, ha, h1, h2, h3⟩ :=
        processDirectory_log_shape flt tgtDir minSize rest fs l hl
      exact ⟨a, List.mem_cons_of_mem e ha, h1, h2, h3⟩

/-- Every configured pair whose index is in range of the target list gets
its header logged by the main loop, regardless of what happened in the
directories processed before it. -/
theorem runPairs_headers (flt : Faults) (minSize : Int)
    (walks : String → List WalkEntry) (targetDirs : List String) :
    ∀ (srcs : List String) (i : Nat) (fs : FS),
      i + srcs.length ≤ targetDirs.length →
      ∀ s ∈ srcs,
        RunLog.header s ∈
          (runPairs flt minSize walks targetDirs srcs i fs).2.1 := by
  intro srcs
  induction srcs with
  | nil => intro i fs _ s hs; exact absurd hs (List.not_mem_nil s)
  | cons src rest ih =>
    intro i fs hlen s hs
    cases hg : targetDirs.get? i with
    | none =>
      rw [List.get?_eq_none] at hg
      simp only [List.length_cons] at hlen
      omega
    | some tgt =>
      rw [runPairs]
      simp only [hg]
      rcases List.mem_cons.mp hs with h | h
      · subst h
        simp
      · have hrec := ih (i + 1)
          (processDirectory flt tgt minSize (walks src) fs).1
          (by simp only [List.length_cons] at hlen; omega) s h
        simp only [List.cons_append, List.mem_cons, List.mem_append]
        right
        right
        exact hrec

/-- C3 (amended): when the source file opens successfully and a file
already exists at the destination, `moveFile` returns a conflict error and
the filesystem is completely unchanged — nothing is created, truncated or
written at the destination and the source is not deleted.  Consequently a
repeated transfer whose destination is already occupied, with the source
present again, logs a conflict and leaves both trees as they were. -/
theorem moveFile_conflict_aborts_unchanged
    (flt : Faults) (fs : FS) (src tgt : String)
    (hopen : src ∉ flt.openFail) (hsrc : fs.lookup src ≠ none)
    (hstat : tgt ∉ flt.statFail) (htgt : fs.lookup tgt ≠ none) :
    moveFile flt fs src tgt = (fs, some MoveErr.conflict) := by
  cases h2 : fs.lookup src with
  | none => exact absurd h2 hsrc
  | some data =>
    cases h4 : fs.lookup tgt with
    | none => exact absurd h4 htgt
    | some d2 => simp [moveFile, hopen, h2, hstat, h4]

/-- Witness for C3's amended theorem: on a concrete state whose
destination is occupied, `moveFile` reports a conflict and changes
nothing. -/
theorem moveFile_conflict_aborts_unchanged_witness :
    moveFile noFaults exFSBoth "src/a.bin" "tgt/a.bin" =
      (exFSBoth, some MoveErr.conflict) :=
  moveFile_conflict_aborts_unchanged noFaults exFSBoth "src/a.bin" "tgt/a.bin"
    (by decide) (by decide) (by decide) (by decide)

/-- Counterexample to C3 as stated: after a fully successful first
transfer the source file has been deleted, so running the very same
transfer a second time fails to open the source and returns an open
error, not a conflict error. -/
theorem moveFile_second_run_counterexample :
    (moveFile noFaults exFS "src/a.bin" "tgt/a.bin").2 = none ∧
    (moveFile noFaults (moveFile noFaults exFS "src/a.bin" "tgt/a.bin").1
        "src/a.bin" "tgt/a.bin").2 = some MoveErr.openErr ∧
    MoveErr.openErr ≠ MoveErr.conflict := by
  decide

/-- C10: the two implementations of `moveFile` are not behaviourally
equal.  In any state where the source opens successfully, the destination
is already occupied and the copy-then-delete primitives do not fault, the
current `moveFile` returns a conflict error leaving the state unchanged,
while the legacy `moveFile` succeeds: it truncates and overwrites the
existing destination with the source's bytes and deletes the source. -/
theorem moveFile_legacy_not_equivalent
    (flt : Faults) (fs : FS) (src tgt : String) (data : FileData)
    (hopen : src ∉ flt.openFail) (hsrc : fs.lookup src = some data)
    (hstat : tgt ∉ flt.statFail) (htgt : fs.lookup tgt ≠ none)
    (hcreate : tgt ∉ flt.createFail) (hcopy : src ∉ flt.copyFail)
    (hremove : src ∉ flt.removeFail) (hne : src ≠ tgt) :
    moveFile flt fs src tgt = (fs, some MoveErr.conflict) ∧
    (moveFileLegacy flt fs src tgt).2 = none ∧
    (moveFileLegacy flt fs src tgt).1.lookup tgt = some data ∧
    (moveFileLegacy flt fs src tgt).1.lookup src = none := by
  refine ⟨moveFile_conflict_aborts_unchanged flt fs src tgt hopen
    (by rw [hsrc]; exact fun h => Option.noConfusion h) hstat htgt, ?_, ?_, ?_⟩
  · simp [moveFileLegacy, hopen, hsrc, hcreate, hcopy, hremove]
  · simp [moveFileLegacy, hopen, hsrc, hcreate, hcopy, hremove,
      FS.lookup_erase_ne _ _ _ hne, FS.lookup_insert_self]
  · simp [moveFileLegacy, hopen, hsrc, hcreate, hcopy, hremove,
      FS.lookup_erase_self]

/-- Witness for C10: the divergence realised on a concrete state whose
destination already holds a file. -/
theorem moveFile_legacy_not_equivalent_witness :
    moveFile noFaults exFSBoth "src/a.bin" "tgt/a.bin" =
      (exFSBoth, some MoveErr.conflict) ∧
    (moveFileLegacy noFaults exFSBoth "src/a.bin" "tgt/a.bin").2 = none ∧
    (moveFileLegacy noFaults exFSBoth "src/a.bin" "tgt/a.bin").1.lookup
      "tgt/a.bin" = some ⟨[1, 2, 3]⟩ ∧
    (moveFileLegacy noFaults exFSBoth "src/a.bin" "tgt/a.bin").1.lookup
      "src/a.bin" = none :=
  moveFile_legacy_not_equivalent noFaults exFSBoth "src/a.bin" "tgt/a.bin"
    ⟨[1, 2, 3]⟩ (by decide) (by decide) (by decide) (by decide) (by decide)
    (by decide) (by decide) (by decide)

/-- A filesystem with one qualifying file nested deep under the source
directory, used for the flattening witness. -/
def exFSDeep : FS := [("src/sub/deep/a.bin", ⟨[7]⟩)]

/-- C2: directories are skipped and a visited file is handed to
`moveFile` if and only if its size meets the threshold.  First conjunct:
an entry that is a directory or below the threshold contributes nothing —
the walk step is identical to not visiting it at all (so the file is
neither moved nor logged).  Second conjunct: a non-directory entry at or
above the threshold is transferred (the step is exactly the `moveFile`
attempt).  Third conjunct: every log line stems from a visited
non-directory entry whose size meets the threshold, so a file below the
threshold is never mentioned in any log line. -/
theorem processDirectory_filters_by_size
    (flt : Faults) (tgtDir : String) (minSize : Int) (e : WalkEntry)
    (rest es : List WalkEntry) (fs fs0 : FS) :
    (e.isDir = true ∨ e.size < minSize →
      processDirectory flt tgtDir minSize (e :: rest) fs =
        processDirectory flt tgtDir minSize rest fs) ∧
    (e.isDir = false → minSize ≤ e.size →
      processDirectory flt tgtDir minSize (e :: rest) fs =
        (let targetPath := pathJoin tgtDir (baseName e.path)
         let step := moveFile flt fs e.path targetPath
         match step.2 with
         | some err =>
           (step.1, [RunLog.moveError e.path targetPath err], some err)
         | none =>
           let r := processDirectory flt tgtDir minSize rest step.1
           (r.1, RunLog.moved e.path targetPath :: r.2.1, r.2.2))) ∧
    (∀ l ∈ (processDirectory flt tgtDir minSize es fs0).2.1,
      ∃ a, a ∈ es ∧ a.isDir = false ∧ minSize ≤ a.size ∧
        (l = RunLog.moved a.path (pathJoin tgtDir (baseName a.path)) ∨
         ∃ err,
           l = RunLog.moveError a.path (pathJoin tgtDir (baseName a.path))
             err)) := by
  refine ⟨?_, ?_, ?_⟩
  · intro h
    refine processDirectory_cons_skip flt tgtDir minSize e rest fs ?_
    rcases h with h | h
    · intro hc
      rw [h] at hc
      exact Bool.noConfusion hc.1
    · intro hc
      exact absurd hc.2 (not_le.mpr h)
  · intro h1 h2
    rw [processDirectory, if_pos ⟨h1, h2⟩]
  · intro l hl
    exact processDirectory_log_shape flt tgtDir minSize es fs0 l hl

/-- Witness for C2: a small file (3 bytes, threshold 10) is skipped — the
walk step equals the walk without it — and a qualifying file's success
log line is accounted for by a qualifying visited entry. -/
theorem processDirectory_filters_by_size_witness :
    (processDirectory noFaults "tgt" 10
        [⟨"src/sub/small.bin", false, 3⟩] exFS =
      processDirectory noFaults "tgt" 10 [] exFS) ∧
    (∃ a, a ∈ [(⟨"src/a.bin", false, 100⟩ : WalkEntry)] ∧ a.isDir = false ∧
      (10 : Int) ≤ a.size ∧
      (RunLog.moved "src/a.bin" "tgt/a.bin" =
          RunLog.moved a.path (pathJoin "tgt" (baseName a.path)) ∨
       ∃ err, RunLog.moved "src/a.bin" "tgt/a.bin" =
          RunLog.moveError a.path (pathJoin "tgt" (baseName a.path)) err)) :=
  ⟨(processDirectory_filters_by_size noFaults "tgt" 10
      ⟨"src/sub/small.bin", false, 3⟩ [] [] exFS exFS).1 (Or.inr (by decide)),
   (processDirectory_filters_by_size noFaults "tgt" 10
      ⟨"src/sub/small.bin", false, 3⟩ [] [⟨"src/a.bin", false, 100⟩] exFS
      exFS).2.2 (RunLog.moved "src/a.bin" "tgt/a.bin") (by decide)⟩

/-- C4: every transfer (logged as a success or as a failure) sends the
file to the target directory joined with the base name of the visited
path — nested structure under the source is never reproduced under the
target. -/
theorem processDirectory_flattens_to_basename
    (flt : Faults) (tgtDir : String) (minSize : Int) (es : List WalkEntry)
    (fs : FS) (l : RunLog)
    (hl : l ∈ (processDirectory flt tgtDir minSize es fs).2.1) :
    ∃ a, a ∈ es ∧
      (l = RunLog.moved a.path (pathJoin tgtDir (baseName a.path)) ∨
       ∃ err,
         l = RunLog.moveError a.path (pathJoin tgtDir (baseName a.path))
           err) := by
  obtain ⟨a, ha, _, _, h⟩ :=
    processDirectory_log_shape flt tgtDir minSize es fs l hl
  exact ⟨a, ha, h⟩

/-- Witness for C4: a file nested three levels deep lands at
`tgt/a.bin`, its base name joined directly onto the target directory. -/
theorem processDirectory_flattens_to_basename_witness :
    ∃ a, a ∈ [(⟨"src/sub/deep/a.bin", false, 100⟩ : WalkEntry)] ∧
      (RunLog.moved "src/sub/deep/a.bin" "tgt/a.bin" =
          RunLog.moved a.path (pathJoin "tgt" (baseName a.path)) ∨
       ∃ err, RunLog.moved "src/sub/deep/a.bin" "tgt/a.bin" =
          RunLog.moveError a.path (pathJoin "tgt" (baseName a.path)) err) :=
  processDirectory_flattens_to_basename noFaults "tgt" 10
    [⟨"src/sub/deep/a.bin", false, 100⟩] exFSDeep
    (RunLog.moved "src/sub/deep/a.bin" "tgt/a.bin") (by decide)

/-- C5: a per-file transfer failure is logged with the source path, the
destination path and the underlying error, and the walk of that source
tree stops on the spot — the remaining entries of the tree are not
visited (the result does not depend on `rest`).  Meanwhile the main loop
still processes every configured source/target pair: each pair's header
line is logged whatever happened in the pairs before it. -/
theorem transfer_failure_aborts_walk_not_main_loop
    (flt : Faults) (tgtDir : String) (minSize : Int) (e : WalkEntry)
    (rest : List WalkEntry) (fs : FS) (err : MoveErr)
    (walks : String → List WalkEntry) (targetDirs srcs : List String)
    (i : Nat) (fs0 : FS) :
    (e.isDir = false → minSize ≤ e.size →
      (moveFile flt fs e.path (pathJoin tgtDir (baseName e.path))).2 =
        some err →
      processDirectory flt tgtDir minSize (e :: rest) fs =
        ((moveFile flt fs e.path (pathJoin tgtDir (baseName e.path))).1,
         [RunLog.moveError e.path (pathJoin tgtDir (baseName e.path)) err],
         some err)) ∧
    (i + srcs.length ≤ targetDirs.length →
      ∀ s ∈ srcs,
        RunLog.header s ∈
          (runPairs flt minSize walks targetDirs srcs i fs0).2.1) := by
  constructor
  · intro h1 h2 hm
    exact processDirectory_cons_fail flt tgtDir minSize e rest fs err
      ⟨h1, h2⟩ hm
  · intro hlen s hs
    exact runPairs_headers flt minSize walks targetDirs srcs i fs0 hlen s hs

/-- Witness for C5: a conflict on the first of two entries aborts the
walk with exactly the one error line, and in a two-pair run the header of
the second pair is still logged. -/
theorem transfer_failure_aborts_walk_not_main_loop_witness :
    (processDirectory noFaults "tgt" 1
        [⟨"src/a.bin", false, 100⟩, ⟨"src/b.bin", false, 100⟩] exFSBoth =
      (exFSBoth,
       [RunLog.moveError "src/a.bin" "tgt/a.bin" MoveErr.conflict],
       some MoveErr.conflict)) ∧
    RunLog.header "s2" ∈
      (runPairs noFaults 1 (fun _ => []) ["t1", "t2"] ["s1", "s2"] 0
        exFS).2.1 :=
  ⟨by
    have h := (transfer_failure_aborts_walk_not_main_loop noFaults "tgt" 1
      ⟨"src/a.bin", false, 100⟩ [⟨"src/b.bin", false, 100⟩] exFSBoth
      MoveErr.conflict (fun _ => []) [] [] 0 exFS).1 (by decide) (by decide)
      (by decide)
    exact h.trans (by decide),
   (transfer_failure_aborts_walk_not_main_loop noFaults "tgt" 1
      ⟨"src/a.bin", false, 100⟩ [] exFSBoth MoveErr.conflict (fun _ => [])
      ["t1", "t2"] ["s1", "s2"] 0 exFS).2 (by decide) "s2" (by decide)⟩

/-- `logRetentionDays` from `src/main.go` line 23. -/
def logRetentionDays : Int := 5

/-- The cutoff `time.Now().AddDate(0, 0, -logRetentionDays)` computed by
`cleanOldLogs`, on a seconds timeline with civil days of 86400 seconds. -/
def retentionCutoff (now : Int) : Int := now - logRetentionDays * 86400

/-- One entry of `os.ReadDir(logDir)` together with the facts the sweep
consults: whether it is a directory, the modification time `os.Stat`
would report, and whether `os.Stat` respectively `os.Remove` fail on it. -/
structure LogDirEntry where
  name : String
  isDir : Bool
  modTime : Int
  statFails : Bool
  removeFails : Bool
deriving DecidableEq, Repr

/-- The log lines `cleanOldLogs` emits. -/
inductive CleanAction
  | deleted (name : String)
  | statErrLog (name : String)
  | removeErrLog (name : String)
deriving DecidableEq, Repr

/-- The per-entry loop of `cleanOldLogs` (`src/main.go` lines 127-144):
skip directories; a failing stat is logged and the entry skipped; an
entry whose modification time is strictly before the cutoff is removed
(the removal logged, or the removal error logged if `os.Remove` fails);
everything else is retained.  Returns the entries still present after
the sweep together with the actions logged. -/
def cleanOldLogsLoop (cutoff : Int) :
    List LogDirEntry → List LogDirEntry × List CleanAction
  | [] => ([], [])
  | e :: rest =>
    let k := cleanOldLogsLoop cutoff rest
    if e.isDir then (e :: k.1, k.2)
    else if e.statFails then (e :: k.1, CleanAction.statErrLog e.name :: k.2)
    else if e.modTime < cutoff then
      if e.removeFails then
        (e :: k.1, CleanAction.removeErrLog e.name :: k.2)
      else
        (k.1, CleanAction.deleted e.name :: k.2)
    else (e :: k.1, k.2)

/-- `cleanOldLogs` from `src/main.go` (lines 119-145): compute the cutoff
from the current time and sweep the log directory entries. -/
def cleanOldLogs (now : Int) (entries : List LogDirEntry) :
    List LogDirEntry × List CleanAction :=
  cleanOldLogsLoop (retentionCutoff now) entries

/-- Whether the sweep leaves an entry in place. -/
def keepEntry (cutoff : Int) (e : LogDirEntry) : Bool :=
  e.isDir || e.statFails || !(decide (e.modTime < cutoff)) || e.removeFails

theorem cleanOldLogsLoop_remaining_eq_filter (cutoff : Int)
    (es : List LogDirEntry) :
    (cleanOldLogsLoop cutoff es).1 = es.filter (keepEntry cutoff) := by
  induction es with
  | nil => rfl
  | cons e rest ih =>
    by_cases h1 : e.isDir
    · simp [cleanOldLogsLoop, keepEntry, h1, ih]
    · by_cases h2 : e.statFails
      · simp [cleanOldLogsLoop, keepEntry, h1, h2, ih]
      · by_cases h3 : e.modTime < cutoff
        · by_cases h4 : e.removeFails
          · simp [cleanOldLogsLoop, keepEntry, h1, h2, h3, h4, ih]
          · simp [cleanOldLogsLoop, keepEntry, h1, h2, h3, h4, ih]
        · simp [cleanOldLogsLoop, keepEntry, h1, h2, h3, ih]

theorem cleanOldLogsLoop_cons_actions_superset (cutoff : Int)
    (a : LogDirEntry) (rest : List LogDirEntry) (x : CleanAction)
    (hx : x ∈ (cleanOldLogsLoop cutoff rest).2) :
    x ∈ (cleanOldLogsLoop cutoff (a :: rest)).2 := by
  simp only [cleanOldLogsLoop]
  split
  · exact hx
  · split
    · exact List.mem_cons_of_mem _ hx
    · split
      · split
        · exact List.mem_cons_of_mem _ hx
        · exact List.mem_cons_of_mem _ hx
      · exact hx

theorem cleanOldLogsLoop_action_mem (cutoff : Int) :
    ∀ (es : List LogDirEntry) (e : LogDirEntry), e ∈ es → e.isDir = false →
      (e.statFails = true →
        CleanAction.statErrLog e.name ∈ (cleanOldLogsLoop cutoff es).2) ∧
      (e.statFails = false → e.removeFails = false → e.modTime < cutoff →
        CleanAction.deleted e.name ∈ (cleanOldLogsLoop cutoff es).2)
  | [], e, he, _ => absurd he (List.not_mem_nil e)
  | a :: rest, e, he, hdir => by
    rcases List.mem_cons.mp he with h | h
    · subst h
      constructor
      · intro hs
        simp [cleanOldLogsLoop, hdir, hs]
      · intro hs hr hm
        simp [cleanOldLogsLoop, hdir, hs, hr, hm]
    · have ih := cleanOldLogsLoop_action_mem cutoff rest e h hdir
      exact ⟨fun hs => cleanOldLogsLoop_cons_actions_superset cutoff a rest _
          (ih.1 hs),
        fun hs hr hm => cleanOldLogsLoop_cons_actions_superset cutoff a rest _
          (ih.2 hs hr hm)⟩

/-- C6: the sweep deletes exactly the log files whose modification time
is strictly before now minus 5 days and retains every file modified at or
after that cutoff; an entry whose stat fails is logged and skipped (it
stays in place) while the sweep still treats every other entry of the
directory as specified. -/
theorem cleanOldLogs_retention_policy (now : Int) (es : List LogDirEntry)
    (e : LogDirEntry) (he : e ∈ es) (hdir : e.isDir = false) :
    (e.statFails = false → e.removeFails = false →
      ((e ∈ (cleanOldLogs now es).1 ↔ retentionCutoff now ≤ e.modTime) ∧
       (e.modTime < retentionCutoff now →
         CleanAction.deleted e.name ∈ (cleanOldLogs now es).2))) ∧
    (e.statFails = true →
      e ∈ (cleanOldLogs now es).1 ∧
      CleanAction.statErrLog e.name ∈ (cleanOldLogs now es).2) := by
  constructor
  · intro hs hr
    constructor
    · rw [cleanOldLogs, cleanOldLogsLoop_remaining_eq_filter, List.mem_filter]
      rw [keepEntry, hdir, hs, hr]
      simp [he, Int.not_lt]
    · intro hm
      exact (cleanOldLogsLoop_action_mem (retentionCutoff now) es e he
        hdir).2 hs hr hm
  · intro hs
    constructor
    · rw [cleanOldLogs, cleanOldLogsLoop_remaining_eq_filter, List.mem_filter]
      rw [keepEntry, hdir, hs]
      simp [he]
    · exact (cleanOldLogsLoop_action_mem (retentionCutoff now) es e he
        hdir).1 hs

/-- An example log directory: one stale file, one fresh file, one file
whose stat fails.  At `exNow` the cutoff is 100. -/
def exLogDir : List LogDirEntry :=
  [⟨"old.log", false, 50, false, false⟩,
   ⟨"new.log", false, 150, false, false⟩,
   ⟨"bad.log", false, 50, true, false⟩]

/-- The instant at which `retentionCutoff` is 100. -/
def exNow : Int := 432100

/-- Witness for C6: at the concrete directory `exLogDir` the stale file
is deleted (and is not among the survivors), and the stat-failing file is
skipped with its error logged. -/
theorem cleanOldLogs_retention_policy_witness :
    ((⟨"old.log", false, 50, false, false⟩ : LogDirEntry) ∈
        (cleanOldLogs exNow exLogDir).1 ↔ retentionCutoff exNow ≤ 50) ∧
    CleanAction.deleted "old.log" ∈ (cleanOldLogs exNow exLogDir).2 ∧
    (⟨"bad.log", false, 50, true, false⟩ : LogDirEntry) ∈
      (cleanOldLogs exNow exLogDir).1 ∧
    CleanAction.statErrLog "bad.log" ∈ (cleanOldLogs exNow exLogDir).2 :=
  ⟨((cleanOldLogs_retention_policy exNow exLogDir
      ⟨"old.log", false, 50, false, false⟩ (by decide) (by decide)).1
      (by decide) (by decide)).1,
   ((cleanOldLogs_retention_policy exNow exLogDir
      ⟨"old.log", false, 50, false, false⟩ (by decide) (by decide)).1
      (by decide) (by decide)).2 (by decide),
   ((cleanOldLogs_retention_policy exNow exLogDir
      ⟨"bad.log", false, 50, true, false⟩ (by decide) (by decide)).2
      (by decide)).1,
   ((cleanOldLogs_retention_policy exNow exLogDir
      ⟨"bad.log", false, 50, true, false⟩ (by decide) (by decide)).2
      (by decide)).2⟩

/-- The `Config` struct of `src/main.go` (lines 13-17): the JSON keys are
`source_dirs`, `target_dirs` and `min_file_size`. -/
structure Config where
  sourceDirs : List String
  targetDirs : List String
  minFileSize : Int
deriving DecidableEq, Repr

/-- The hardcoded default configuration (`src/main.go` lines 64-68). -/
def defaultConfig : Config :=
  ⟨["e:/FilesNota/572149/1", "e:/FilesNota/572149/2"],
   ["//192.168.2.15/5/test/1", "//192.168.2.15/5/test/2"],
   26463150⟩

/-- JSON string escaping as `encoding/json` performs it for the
characters occurring in configuration values. -/
def escapeChar (c : Char) : List Char :=
  if c = '\"' then ['\\', '\"']
  else if c = '\\' then ['\\', '\\']
  else if c = '\n' then ['\\', 'n']
  else if c = '\t' then ['\\', 't']
  else if c = '\r' then ['\\', 'r']
  else [c]

/-- A JSON string literal: the escaped characters between quotes. -/
def encodeJsonString (s : String) : String :=
  ⟨'\"' :: ((s.data.map escapeChar).flatten ++ ['\"'])⟩

/-- Concatenate with a separator (no trailing separator). -/
def joinWith (sep : String) : List String → String
  | [] => ""
  | [x] => x
  | x :: y :: rest => x ++ sep ++ joinWith sep (y :: rest)

/-- How `json.MarshalIndent(·, "", "  ")` renders a `[]string` field that
sits at nesting depth one: elements on their own lines at depth two, the
closing bracket back at depth one; the empty slice renders flat. -/
def renderStringArr (xs : List String) : String :=
  match xs with
  | [] => "[]"
  | _ => "[\n" ++
      joinWith ",\n" (xs.map (fun s => "    " ++ encodeJsonString s)) ++
      "\n  ]"

/-- `json.MarshalIndent(config, "", "  ")` applied to the `Config`
struct: the three fields in declaration order, two-space indentation. -/
def marshalIndentConfig (c : Config) : String :=
  "\x7b\n  \"source_dirs\": " ++ renderStringArr c.sourceDirs ++
  ",\n  \"target_dirs\": " ++ renderStringArr c.targetDirs ++
  ",\n  \"min_file_size\": " ++ toString c.minFileSize ++ "\n\x7d"

/-- The JSON values `encoding/json` can produce (numbers restricted to
integers, which is all the `Config` shape admits without a decode
error). -/
inductive Json
  | null
  | bool (b : Bool)
  | str (s : String)
  | num (n : Int)
  | arr (elems : List Json)
  | obj (fields : List (String × Json))

/-- Drop leading JSON whitespace. -/
def skipWs : List Char → List Char
  | [] => []
  | c :: rest =>
    if c = ' ' ∨ c = '\n' ∨ c = '\t' ∨ c = '\r' then skipWs rest
    else c :: rest

/-- Parse the body of a JSON string after the opening quote, handling
the escape sequences `encoding/json` emits. -/
def parseStringBody : List Char → List Char → Option (List Char × List Char)
  | [], _ => none
  | c :: rest, acc =>
    if c = '\"' then some (acc, rest)
    else if c = '\\' then
      match rest with
      | [] => none
      | d :: rest2 =>
        if d = '\"' then parseStringBody rest2 (acc ++ ['\"'])
        else if d = '\\' then parseStringBody rest2 (acc ++ ['\\'])
        else if d = '/' then parseStringBody rest2 (acc ++ ['/'])
        else if d = 'n' then parseStringBody rest2 (acc ++ ['\n'])
        else if d = 't' then parseStringBody rest2 (acc ++ ['\t'])
        else if d = 'r' then parseStringBody rest2 (acc ++ ['\r'])
        else none
    else parseStringBody rest (acc ++ [c])

/-- Split a leading run of decimal digits from the input. -/
def takeDigits : List Char → List Char × List Char
  | [] => ([], [])
  | c :: rest =>
    if c.isDigit then
      let r := takeDigits rest
      (c :: r.1, r.2)
    else ([], c :: rest)

/-- Decimal digits to a natural number. -/
def digitsToNat : List Char → Nat → Nat
  | [], acc => acc
  | c :: rest, acc => digitsToNat rest (acc * 10 + (c.toNat - '0'.toNat))

/-- Parse a JSON integer after an optional sign.  A fractional or
exponent part is rejected, as decoding such a number into the `int64`
field of `Config` fails in Go. -/
def parseNumAfterSign (neg : Bool) (cs : List Char) :
    Option (Json × List Char) :=
  match takeDigits cs with
  | ([], _) => none
  | (d :: ds, rest) =>
    let bad : Bool :=
      match rest with
      | c :: _ => c == '.' || c == 'e' || c == 'E'
      | [] => false
    if bad then none
    else
      let n : Int := Int.ofNat (digitsToNat (d :: ds) 0)
      some (.num (if neg then -n else n), rest)

/-- Parse a JSON number. -/
def parseNumber : List Char → Option (Json × List Char)
  | '-' :: rest => parseNumAfterSign true rest
  | cs => parseNumAfterSign false cs

mutual

/-- Parse one JSON value; the fuel bounds the recursion depth and any
input is parsed completely with fuel `length + 1`. -/
def parseJsonF : Nat → List Char → Option (Json × List Char)
  | 0, _ => none
  | fuel + 1, cs =>
    match skipWs cs with
    | [] => none
    | c :: rest =>
      if c = 'n' then
        match rest with
        | 'u' :: 'l' :: 'l' :: rest2 => some (.null, rest2)
        | _ => none
      else if c = 't' then
        match rest with
        | 'r' :: 'u' :: 'e' :: rest2 => some (.bool true, rest2)
        | _ => none
      else if c = 'f' then
        match rest with
        | 'a' :: 'l' :: 's' :: 'e' :: rest2 => some (.bool false, rest2)
        | _ => none
      else if c = '\"' then
        match parseStringBody rest [] with
        | none => none
        | some (s, rest2) => some (.str ⟨s⟩, rest2)
      else if c = '[' then
        match skipWs rest with
        | ']' :: rest2 => some (.arr [], rest2)
        | rest2 => parseArrF fuel rest2 []
      else if c = '\x7b' then
        match skipWs rest with
        | '\x7d' :: rest2 => some (.obj [], rest2)
        | rest2 => parseObjF fuel rest2 []
      else parseNumber (c :: rest)

/-- Parse the elements of a non-empty JSON array. -/
def parseArrF : Nat → List Char → List Json → Option (Json × List Char)
  | 0, _, _ => none
  | fuel + 1, cs, acc =>
    match parseJsonF fuel cs with
    | none => none
    | some (v, rest) =>
      match skipWs rest with
      | ',' :: rest2 => parseArrF fuel rest2 (acc ++ [v])
      | ']' :: rest2 => some (.arr (acc ++ [v]), rest2)
      | _ => none

/-- Parse the members of a non-empty JSON object. -/
def parseObjF : Nat → List Char → List (String × Json) →
    Option (Json × List Char)
  | 0, _, _ => none
  | fuel + 1, cs, acc =>
    match skipWs cs with
    | '\"' :: rest =>
      match parseStringBody rest [] with
      | none => none
      | some (k, rest2) =>
        match skipWs rest2 with
        | ':' :: rest3 =>
          match parseJsonF fuel rest3 with
          | none => none
          | some (v, rest4) =>
            match skipWs rest4 with
            | ',' :: rest5 => parseObjF fuel rest5 (acc ++ [(⟨k⟩, v)])
            | '\x7d' :: rest5 => some (.obj (acc ++ [(⟨k⟩, v)]), rest5)
            | _ => none
        | _ => none
    | _ => none

end

/-- Look up a member of a JSON object by key (`encoding/json` matches the
struct tags `source_dirs`, `target_dirs`, `min_file_size` exactly for the
inputs modelled here). -/
def jsonField : List (String × Json) → String → Option Json
  | [], _ => none
  | (k, v) :: rest, key => if k = key then some v else jsonField rest key

/-- Decode a JSON value into a `[]string` field: every element must be a
string; `null` leaves the zero value. -/
def asStringList : Json → Option (List String)
  | .arr xs => asStringListAux xs
  | .null => some []
  | _ => none
where
  asStringListAux : List Json → Option (List String)
    | [] => some []
    | .str s :: rest =>
      match asStringListAux rest with
      | some ss => some (s :: ss)
      | none => none
    | _ :: _ => none

/-- Decode a JSON value into an `int64` field: must be an integer;
`null` leaves the zero value. -/
def asInt : Json → Option Int
  | .num n => some n
  | .null => some 0
  | _ => none

/-- `json.Decoder.Decode(&config)` on the file contents: parse one JSON
value and decode it into the `Config` shape.  A member missing from the
object leaves the field's zero value (Go performs no validation of the
configuration); a syntax error or a member of the wrong type is a decode
error (`none`). -/
def decodeConfig (txt : String) : Option Config :=
  match parseJsonF (txt.length + 1) txt.data with
  | none => none
  | some (.obj fields, _) =>
    let srcs : Option (List String) :=
      match jsonField fields "source_dirs" with
      | none => some []
      | some v => asStringList v
    let tgts : Option (List String) :=
      match jsonField fields "target_dirs" with
      | none => some []
      | some v => asStringList v
    let minSz : Option Int :=
      match jsonField fields "min_file_size" with
      | none => some 0
      | some v => asInt v
    match srcs, tgts, minSz with
    | some a, some b, some m => some ⟨a, b, m⟩
    | _, _, _ => none
  | some (.null, _) => some ⟨[], [], 0⟩
  | some _ => none

/-- `loadOrCreateConfig` from `src/main.go` (lines 62-101), over the
config file's contents (`none` means the file does not exist).  If the
file is absent, the default configuration is serialised with
`MarshalIndent` and written, and the default is returned; otherwise the
contents are decoded, a decode failure being an error.  The first
component is the file's contents afterwards. -/
def loadOrCreateConfig (file : Option String) :
    Option String × Except String Config :=
  match file with
  | none => (some (marshalIndentConfig defaultConfig), .ok defaultConfig)
  | some txt =>
    match decodeConfig txt with
    | some c => (some txt, .ok c)
    | none => (some txt, .error "ошибка при чтении файла конфигурации")

/-- The observable outcome of a run of `main`: the final filesystem, the
transfer log lines, the retention-sweep actions, whether the run died on
the out-of-range indexing of `TargetDirs`, and whether it aborted on a
configuration error. -/
structure MainResult where
  fs : FS
  logs : List RunLog
  cleanActions : List CleanAction
  panicked : Bool
  configError : Bool
deriving DecidableEq

/-- `main` from `src/main.go` (lines 26-57): load or create the config —
aborting on error before anything else happens — then run the retention
sweep once and process the configured directory pairs in order. -/
def mainModel (configFile : Option String) (flt : Faults)
    (walks : String → List WalkEntry) (logEntries : List LogDirEntry)
    (now : Int) (fs : FS) : MainResult :=
  match (loadOrCreateConfig configFile).2 with
  | .error _ => ⟨fs, [], [], false, true⟩
  | .ok config =>
    let cleaned := cleanOldLogs now logEntries
    let r := runPairs flt config.minFileSize walks config.targetDirs
      config.sourceDirs 0 fs
    ⟨r.1, r.2.1, cleaned.2, r.2.2, false⟩

set_option maxRecDepth 40000 in
/-- C7: round trip of the default configuration.  When no config file
exists, `loadOrCreateConfig` writes the default rendered by
`MarshalIndent` and returns the default; loading the written file again
decodes to a `Config` equal to the default in all three fields. -/
theorem loadOrCreateConfig_default_roundtrip :
    loadOrCreateConfig none =
      (some (marshalIndentConfig defaultConfig), Except.ok defaultConfig) ∧
    decodeConfig (marshalIndentConfig defaultConfig) = some defaultConfig ∧
    loadOrCreateConfig (some (marshalIndentConfig defaultConfig)) =
      (some (marshalIndentConfig defaultConfig),
       Except.ok defaultConfig) := by
  refine ⟨rfl, by decide, ?_⟩
  show (match decodeConfig (marshalIndentConfig defaultConfig) with
    | some c => (some (marshalIndentConfig defaultConfig), Except.ok c)
    | none => (some (marshalIndentConfig defaultConfig),
        Except.error "ошибка при чтении файла конфигурации")) = _
  rw [show decodeConfig (marshalIndentConfig defaultConfig) =
    some defaultConfig by decide]

/-- A configuration text whose directory lists have mismatched lengths:
two sources, one target. -/
def mismatchedConfigText : String :=
  "\x7b \"source_dirs\": [\"a\", \"b\"], \"target_dirs\": [\"t\"], \"min_file_size\": 1 \x7d"

/-- C8: no validation happens at load time — the mismatched configuration
loads successfully — and the main loop then runs out of range when it
indexes `TargetDirs` for the second source directory: the first pair is
processed (its header is logged) and the run dies at use time. -/
theorem config_no_validation_index_out_of_range :
    (loadOrCreateConfig (some mismatchedConfigText)).2 =
      Except.ok ⟨["a", "b"], ["t"], 1⟩ ∧
    (Config.targetDirs ⟨["a", "b"], ["t"], 1⟩).get? 1 = none ∧
    mainModel (some mismatchedConfigText) noFaults (fun _ => []) [] 0 [] =
      ⟨[], [RunLog.header "a"], [], true, false⟩ := by
  refine ⟨?_, by decide, ?_⟩
  · show (match decodeConfig mismatchedConfigText with
      | some c => (some mismatchedConfigText, Except.ok c)
      | none => (some mismatchedConfigText,
          Except.error "ошибка при чтении файла конфигурации")).2 = _
    rw [show decodeConfig mismatchedConfigText =
      some ⟨["a", "b"], ["t"], 1⟩ by decide]
  · show mainModel (some mismatchedConfigText) noFaults (fun _ => []) [] 0 []
      = ⟨[], [RunLog.header "a"], [], true, false⟩
    rw [mainModel]
    rw [show (loadOrCreateConfig (some mismatchedConfigText)).2 =
      Except.ok ⟨["a", "b"], ["t"], 1⟩ from by
        show (match decodeConfig mismatchedConfigText with
          | some c => (some mismatchedConfigText, Except.ok c)
          | none => (some mismatchedConfigText,
              Except.error "ошибка при чтении файла конфигурации")).2 = _
        rw [show decodeConfig mismatchedConfigText =
          some ⟨["a", "b"], ["t"], 1⟩ by decide]]
    decide

/-- C9: a malformed config file makes `loadOrCreateConfig` return an
error, and `main` aborts before any transfer or log-retention action: the
filesystem is untouched, no transfer is logged and no sweep action is
taken. -/
theorem malformed_config_aborts_before_actions (txt : String) (flt : Faults)
    (walks : String → List WalkEntry) (logEntries : List LogDirEntry)
    (now : Int) (fs : FS) (hbad : decodeConfig txt = none) :
    (loadOrCreateConfig (some txt)).2 =
      Except.error "ошибка при чтении файла конфигурации" ∧
    mainModel (some txt) flt walks logEntries now fs =
      ⟨fs, [], [], false, true⟩ := by
  constructor
  · simp [loadOrCreateConfig, hbad]
  · simp [mainModel, loadOrCreateConfig, hbad]

/-- A malformed configuration text (an unterminated object). -/
def malformedConfigText : String := "\x7b \"source_dirs\": ["

/-- Witness for C9: the concrete malformed text aborts the concrete
world untouched. -/
theorem malformed_config_aborts_before_actions_witness :
    (loadOrCreateConfig (some malformedConfigText)).2 =
      Except.error "ошибка при чтении файла конфигурации" ∧
    mainModel (some malformedConfigText) noFaults (fun _ => []) exLogDir
      exNow exFS = ⟨exFS, [], [], false, true⟩ :=
  malformed_config_aborts_before_actions malformedConfigText noFaults
    (fun _ => []) exLogDir exNow exFS (by decide)

end FileOrganizer
